import Mathlib

/-!
Verification of the voice subsystem of the Personal AI Infrastructure
server (`pai-server/src/voice`), as a shallow embedding in Lean.

Strings are modelled as `List Char`; the JavaScript regular-expression
replacements of `BaseVoiceProvider.sanitizeText` are modelled pass by
pass, each with the semantics of a global left-to-right, leftmost-match
replacement. Numeric option values are modelled as rationals.

The two passes whose match length is not bounded by a constant
(heading markers and markdown links) are written with an explicit fuel
argument, initialised with the length of the input, so that every
function in the development computes by kernel reduction; the
fuel-independence lemmas and the `_cons` unfolding equations recover the
natural recursion of a global regex replacement.
-/

namespace PAI

/-- The character class of JavaScript `\s` (also the set trimmed by
`String.prototype.trim`): ASCII whitespace, NBSP, the Unicode space
separators, line/paragraph separators and the BOM. -/
def jsIsSpace (c : Char) : Bool :=
  c.val = 0x20 || c.val = 0x09 || c.val = 0x0a || c.val = 0x0b ||
  c.val = 0x0c || c.val = 0x0d || c.val = 0xa0 || c.val = 0x1680 ||
  (0x2000 <= c.val && c.val <= 0x200a) ||
  c.val = 0x2028 || c.val = 0x2029 || c.val = 0x202f || c.val = 0x205f ||
  c.val = 0x3000 || c.val = 0xfeff

/-- Pass 1 of `sanitizeText`: `.replace(/[<>]/g, '')`. -/
def stripAngle (s : List Char) : List Char :=
  s.filter (fun c => c ≠ '<' && c ≠ '>')

/-- Pass 2 of `sanitizeText`: `.replace(/\*\*/g, '')` — global replacement
of the literal two-character pattern, scanning left to right. -/
def stripDoubleStar : List Char → List Char
  | '*' :: '*' :: rest => stripDoubleStar rest
  | c :: rest => c :: stripDoubleStar rest
  | [] => []

/-- Pass 3 of `sanitizeText`: `.replace(/\*/g, '')`. -/
def stripStar (s : List Char) : List Char :=
  s.filter (fun c => c ≠ '*')

/-- Pass 4 of `sanitizeText`: `` .replace(/`/g, '') ``. -/
def stripBacktick (s : List Char) : List Char :=
  s.filter (fun c => c ≠ '`')

/-- Length of the maximal run of `#` at the head of `s`. -/
def hashRun (s : List Char) : Nat :=
  (s.takeWhile (fun c => c = '#')).length

/-- Attempt to match the regex `#{1,6}\s` at the head of `s`.
The quantifier is greedy, so a match exists exactly when the maximal run
of `#` at the head has length 1..6 and is followed by a whitespace
character; the match consumes the run and that character. Returns the
remainder after the match. -/
def matchHeader (s : List Char) : Option (List Char) :=
  if 1 ≤ hashRun s ∧ hashRun s ≤ 6 then
    match s.drop (hashRun s) with
    | w :: tail => if jsIsSpace w then some tail else none
    | [] => none
  else none

/-- Fuelled worker for pass 5; the fuel only serves to make the
recursion structural and never runs out when initialised with the
length of the input. -/
def stripHeadersF : Nat → List Char → List Char
  | _, [] => []
  | 0, s => s
  | fuel + 1, c :: rest =>
    match matchHeader (c :: rest) with
    | some tail => stripHeadersF fuel tail
    | none => c :: stripHeadersF fuel rest

/-- Pass 5 of `sanitizeText`: `.replace(/#{1,6}\s/g, '')` — global
left-to-right replacement of heading markers (the pattern is not
anchored to line starts). -/
def stripHeaders (s : List Char) : List Char :=
  stripHeadersF s.length s

def linkLabel (s : List Char) : List Char :=
  s.takeWhile (fun c => c ≠ ']')

def linkUrl (s : List Char) : List Char :=
  s.takeWhile (fun c => c ≠ ')')

/-- Attempt to match `([^\]]+)\]\([^)]+\)` (what follows the opening `[`
of the link regex) at the head of `s`. Returns the captured label and
the remainder after the closing parenthesis. -/
def matchLink (s : List Char) : Option (List Char × List Char) :=
  if (linkLabel s).isEmpty then none else
  match s.drop (linkLabel s).length with
  | ']' :: '(' :: rest2 =>
    if (linkUrl rest2).isEmpty then none else
    match rest2.drop (linkUrl rest2).length with
    | ')' :: rem => some (linkLabel s, rem)
    | _ => none
  | _ => none

/-- Fuelled worker for pass 6. -/
def stripLinksF : Nat → List Char → List Char
  | _, [] => []
  | 0, s => s
  | fuel + 1, c :: rest =>
    if c = '[' then
      match matchLink rest with
      | some (grp, rem) => grp ++ stripLinksF fuel rem
      | none => c :: stripLinksF fuel rest
    else c :: stripLinksF fuel rest

/-- Pass 6 of `sanitizeText`:
`.replace(/\[([^\]]+)\]\([^)]+\)/g, '$1')` — markdown links become
their label, scanning left to right. -/
def stripLinks (s : List Char) : List Char :=
  stripLinksF s.length s

/-- Pass 7 of `sanitizeText`: `.trim()`. -/
def jsTrim (s : List Char) : List Char :=
  ((s.dropWhile jsIsSpace).reverse.dropWhile jsIsSpace).reverse

/-- Function `BaseVoiceProvider.sanitizeText` (providers/base.ts): the shared
sanitizer applied by every provider before dispatch. -/
def sanitizeText (s : List Char) : List Char :=
  jsTrim (stripLinks (stripHeaders (stripBacktick (stripStar (stripDoubleStar (stripAngle s))))))

/-! ## Numeric helpers and option records -/

/-- JavaScript `Math.round`: round to the nearest integer, halves toward
positive infinity. -/
def jsRound (q : ℚ) : ℤ := ⌊q + 1 / 2⌋

/-- The value denoted by JavaScript `Number.prototype.toFixed(2)`:
the input rounded to the nearest hundredth. -/
def roundTo2 (q : ℚ) : ℚ := (jsRound (q * 100) : ℚ) / 100

/-- Record `VoiceOptions` (types/index.ts): all fields optional. -/
structure VoiceOptions where
  voice : Option (List Char) := none
  rate : Option ℚ := none
  pitch : Option ℚ := none
  volume : Option ℚ := none
deriving DecidableEq

/-- JavaScript truthiness of an optional string (`undefined` and `''`
are falsy). -/
def truthyStr : Option (List Char) → Option (List Char)
  | some s => if s.isEmpty then none else some s
  | none => none

/-- JavaScript truthiness of an optional number (`undefined` and `0`
are falsy). -/
def truthyNum : Option ℚ → Option ℚ
  | some q => if q = 0 then none else some q
  | none => none

/-- A command-line argument handed to a spawned process: either a
string literal or a number the code stringifies. -/
inductive Tok where
  | str (s : List Char)
  | num (q : ℚ)
deriving DecidableEq

instance instDecidableEqExcept {ε α : Type} [DecidableEq ε] [DecidableEq α] :
    DecidableEq (Except ε α)
  | .error a, .error b => decidable_of_iff (a = b) (by simp)
  | .error _, .ok _ => isFalse (by simp)
  | .ok _, .error _ => isFalse (by simp)
  | .ok a, .ok b => decidable_of_iff (a = b) (by simp)

/-! ## macOS provider (providers/macos.ts) -/

/-- The `-v` arguments pushed by `MacOSVoiceProvider.speak` when
`options?.voice` is truthy. -/
def macosVoiceArgs (options : Option VoiceOptions) : List Tok :=
  match truthyStr (options.bind VoiceOptions.voice) with
  | some v => [Tok.str "-v".toList, Tok.str v]
  | none => []

/-- The `-r` arguments pushed by `MacOSVoiceProvider.speak` when
`options?.rate` is truthy. The `-r` argument is
`options.rate.toString()`, modelled as `Tok.num` of the unchanged
rate. -/
def macosRateArgs (options : Option VoiceOptions) : List Tok :=
  match truthyNum (options.bind VoiceOptions.rate) with
  | some r => [Tok.str "-r".toList, Tok.num r]
  | none => []

/-- Function `MacOSVoiceProvider.speak`: throws when unavailable, otherwise
spawns `say` with optional `-v voice` and `-r rate` arguments followed
by the sanitized text. -/
def macosSpeak (available : Bool) (text : List Char) (options : Option VoiceOptions) :
    Except (List Char) (List Tok) :=
  if !available then .error "macOS voice provider not available".toList
  else .ok (macosVoiceArgs options ++ macosRateArgs options ++ [Tok.str (sanitizeText text)])

/-- The static list `MacOSVoiceProvider.getVoices` returns when the
provider is available. -/
def macosVoiceList : List (List Char × List Char × List Char × List Char × List Char) :=
  [("Jamie".toList, "Jamie (Premium)".toList, "en-GB".toList, "male".toList, "premium".toList),
   ("Ava".toList, "Ava (Premium)".toList, "en-US".toList, "female".toList, "premium".toList),
   ("Tom".toList, "Tom (Enhanced)".toList, "en-US".toList, "male".toList, "enhanced".toList),
   ("Serena".toList, "Serena (Premium)".toList, "en-GB".toList, "female".toList, "premium".toList),
   ("Isha".toList, "Isha (Premium)".toList, "en-IN".toList, "female".toList, "premium".toList),
   ("Oliver".toList, "Oliver (Enhanced)".toList, "en-GB".toList, "male".toList, "enhanced".toList),
   ("Samantha".toList, "Samantha (Enhanced)".toList, "en-US".toList, "female".toList, "enhanced".toList)]

/-- Record `VoiceInfo` (types/index.ts). -/
structure VoiceInfo where
  id : List Char
  name : List Char
  language : List Char
  gender : Option (List Char) := none
  quality : Option (List Char) := none
deriving DecidableEq

/-- Function `MacOSVoiceProvider.getVoices`: empty when unavailable, otherwise a
static list of Premium/Enhanced voices. -/
def macosGetVoices (available : Bool) : List VoiceInfo :=
  if !available then []
  else macosVoiceList.map (fun v =>
    { id := v.1, name := v.2.1, language := v.2.2.1,
      gender := some v.2.2.2.1, quality := some v.2.2.2.2 })

/-! ## Windows provider (providers/windows.ts) -/

/-- Function `WindowsVoiceProvider.normalizeRate`: convert a words-per-minute
rate to the SAPI `-10..10` scale. -/
def normalizeRate (wpm : ℚ) : ℤ :=
  max (-10) (min 10 (jsRound ((wpm - 180) / 20)))

/-- The `.replace(/"/g, '""')` quote escaping applied to the sanitized
text before it is interpolated into the PowerShell script. -/
def escapeQuotes : List Char → List Char
  | [] => []
  | '\"' :: rest => '\"' :: '\"' :: escapeQuotes rest
  | c :: rest => c :: escapeQuotes rest

/-- The data interpolated into the PowerShell script built by
`WindowsVoiceProvider.speak`: the optional `SelectVoice` argument, the
optional normalized `$synth.Rate`, and the argument of
`$synth.Speak("...")`. The script text is a fixed template around these
three holes. -/
structure WinScript where
  selectVoice : Option (List Char)
  rate : Option ℤ
  speakText : List Char
deriving DecidableEq

/-- Function `WindowsVoiceProvider.speak`: throws when unavailable, otherwise
builds and runs the PowerShell script. -/
def windowsSpeak (available : Bool) (text : List Char) (options : Option VoiceOptions) :
    Except (List Char) WinScript :=
  if !available then .error "Windows voice provider not available".toList
  else
    let sanitized := sanitizeText text
    let escapedText := escapeQuotes sanitized
    .ok { selectVoice := truthyStr (options.bind VoiceOptions.voice),
          rate := (truthyNum (options.bind VoiceOptions.rate)).map normalizeRate,
          speakText := escapedText }

/-- Outcome of a spawned child process: an `error` event, or an exit
with a code and captured stdout/stderr. -/
inductive ProcResult where
  | err
  | exit (code : ℤ) (stdout stderr : List Char)
deriving DecidableEq

def intToStr (n : ℤ) : List Char := (toString n).toList

/-- One line of the voice-enumeration output, split on `|` into
`Name|Culture|Gender` (the code destructures exactly three fields);
gender is lower-cased. -/
def parseVoiceLine (line : List Char) : VoiceInfo :=
  let parts := line.splitOn '|'
  { id := parts.getD 0 [], name := parts.getD 0 [],
    language := parts.getD 1 [],
    gender := some ((parts.getD 2 []).map Char.toLower),
    quality := some "standard".toList }

/-- Function `WindowsVoiceProvider.getVoices`: empty when unavailable; otherwise
runs the enumeration script and parses
`stdout.trim().split('\n').filter(line => line.includes('|'))`,
rejecting when the process errors or exits with a nonzero code. -/
def windowsGetVoices (available : Bool) (r : ProcResult) :
    Except (List Char) (List VoiceInfo) :=
  if !available then .ok []
  else match r with
    | .err => .error "spawn error".toList
    | .exit code stdout stderr =>
      if code ≠ 0 then
        .error ("PowerShell exited with code ".toList ++ intToStr code ++
          ": ".toList ++ stderr)
      else
        .ok (((jsTrim stdout).splitOn '\n').filter (fun line => line.contains '|')
          |>.map parseVoiceLine)

/-! ## Android provider (providers/android.ts) -/

/-- The Termux TTS clamp `Math.max(0.1, Math.min(2.0, x))`. -/
def clampTermux (q : ℚ) : ℚ := max (1 / 10) (min 2 q)

/-- The `-r` arguments pushed by `AndroidVoiceProvider.speak` when
`options?.rate` is truthy: the rate divided by the 175-WPM baseline,
clamped into 0.1..2.0 and rendered with `toFixed(2)`. -/
def androidRateArgs (options : Option VoiceOptions) : List Tok :=
  match truthyNum (options.bind VoiceOptions.rate) with
  | some r => [Tok.str "-r".toList, Tok.num (roundTo2 (clampTermux (r / 175)))]
  | none => []

/-- The `-p` arguments pushed by `AndroidVoiceProvider.speak` when
`options?.pitch` is truthy: the pitch clamped into 0.1..2.0 and
rendered with `toFixed(2)`. -/
def androidPitchArgs (options : Option VoiceOptions) : List Tok :=
  match truthyNum (options.bind VoiceOptions.pitch) with
  | some p => [Tok.str "-p".toList, Tok.num (roundTo2 (clampTermux p))]
  | none => []

/-- Function `AndroidVoiceProvider.speak`: throws when unavailable; otherwise
spawns `termux-tts-speak` with the optional `-r`/`-p` arguments
followed by the sanitized text. -/
def androidSpeak (available : Bool) (text : List Char) (options : Option VoiceOptions) :
    Except (List Char) (List Tok) :=
  if !available then .error "Android voice provider not available".toList
  else .ok (androidRateArgs options ++ androidPitchArgs options ++ [Tok.str (sanitizeText text)])

/-- Function `AndroidVoiceProvider.getVoices`: empty when unavailable, otherwise
a single generic descriptor. -/
def androidGetVoices (available : Bool) : List VoiceInfo :=
  if !available then []
  else [{ id := "default".toList, name := "Android TTS".toList,
          language := "en-US".toList, quality := some "standard".toList }]

/-! ## ElevenLabs provider (providers/elevenlabs.ts) -/

/-- Constant `ElevenLabsVoiceProvider.defaultVoiceId`. -/
def defaultVoiceId : List Char := "s3TPKV1kjDlVtZbl4Ksh".toList

/-- The JSON body of the text-to-speech POST request. -/
structure ELBody where
  text : List Char
  modelId : List Char
  stability : ℚ
  similarityBoost : ℚ
deriving DecidableEq

/-- The HTTP request `ElevenLabsVoiceProvider.speak` issues: URL,
headers and JSON body. -/
structure ELRequest where
  url : List Char
  accept : List Char
  contentType : List Char
  xiApiKey : List Char
  body : ELBody
deriving DecidableEq

/-- Function `ElevenLabsVoiceProvider.speak` up to the point the request is
dispatched: throws when unavailable or when no API key is configured,
otherwise POSTs the sanitized text to the voice-specific endpoint. -/
def elevenLabsSpeak (available : Bool) (apiKey : Option (List Char))
    (text : List Char) (options : Option VoiceOptions) :
    Except (List Char) ELRequest :=
  if !available then .error "ElevenLabs API key not configured".toList
  else match truthyStr apiKey with
  | none => .error "ElevenLabs API key not configured".toList
  | some key =>
    let sanitized := sanitizeText text
    let voiceId := (truthyStr (options.bind VoiceOptions.voice)).getD defaultVoiceId
    .ok { url := "https://api.elevenlabs.io/v1/text-to-speech/".toList ++ voiceId,
          accept := "audio/mpeg".toList,
          contentType := "application/json".toList,
          xiApiKey := key,
          body := { text := sanitized,
                    modelId := "eleven_monolingual_v1".toList,
                    stability := 1 / 2, similarityBoost := 1 / 2 } }

/-- Outcome of the voice-catalogue fetch: a thrown network error, or a
response with its `ok` flag and the decoded `(voice_id, name)` pairs. -/
inductive FetchOutcome where
  | fail
  | resp (ok : Bool) (voices : List (List Char × List Char))
deriving DecidableEq

/-- Function `ElevenLabsVoiceProvider.getVoices`: empty when unavailable or
keyless; any fetch failure or non-2xx response also yields the empty
list (the call never throws). -/
def elevenLabsGetVoices (available : Bool) (apiKey : Option (List Char))
    (f : FetchOutcome) : List VoiceInfo :=
  if !available then []
  else match truthyStr apiKey with
  | none => []
  | some _ =>
    match f with
    | .fail => []
    | .resp ok voices =>
      if !ok then []
      else voices.map (fun v =>
        { id := v.1, name := v.2, language := "en-US".toList,
          quality := some "premium".toList })

/-! ## Voice manager (voice/manager.ts) -/

/-- The four providers, identified by name. -/
inductive PName where
  | macos | windows | android | elevenlabs
deriving DecidableEq

/-- A fixed assignment of availability results to the four providers
(the value of each provider's `available` flag after its
`initialize()`). -/
structure Avail where
  macos : Bool
  windows : Bool
  android : Bool
  elevenlabs : Bool
deriving DecidableEq

/-- The construction order of the providers in
`VoiceManager.initialize`. -/
def constructionOrder : List PName :=
  [.macos, .windows, .android, .elevenlabs]

def availOf (a : Avail) : PName → Bool
  | .macos => a.macos
  | .windows => a.windows
  | .android => a.android
  | .elevenlabs => a.elevenlabs

/-- The list `this.providers` after `initialize()`: the constructed providers
are probed in construction order and only those whose `available` flag
is set are pushed. `getProviders()` returns exactly this list. -/
def managerProviders (a : Avail) : List PName :=
  constructionOrder.filter (availOf a)

/-- The active-provider selection
`this.providers.find(p => p.name !== 'ElevenLabs') || this.providers[0] || null`. -/
def activeProvider (a : Avail) : Option PName :=
  ((managerProviders a).find? (fun p => !(p == PName.elevenlabs))).orElse
    (fun _ => (managerProviders a).head?)

/-- What a `speak` call dispatches, tagged by the provider that
performed it. -/
inductive Dispatch where
  | macos (args : List Tok)
  | windows (script : WinScript)
  | android (args : List Tok)
  | elevenlabs (req : ELRequest)
deriving DecidableEq

/-- Function `VoiceManager.speak` (after initialization): throws
`'No voice provider available'` when no provider is active, otherwise
delegates to the active provider's `speak`. -/
def managerSpeak (a : Avail) (apiKey : Option (List Char))
    (text : List Char) (options : Option VoiceOptions) :
    Except (List Char) Dispatch :=
  match activeProvider a with
  | none => .error "No voice provider available".toList
  | some .macos => (macosSpeak a.macos text options).map .macos
  | some .windows => (windowsSpeak a.windows text options).map .windows
  | some .android => (androidSpeak a.android text options).map .android
  | some .elevenlabs => (elevenLabsSpeak a.elevenlabs apiKey text options).map .elevenlabs

/-- Function `VoiceManager.getVoices` (after initialization): the empty list
when no provider is active, otherwise the active provider's
`getVoices`. -/
def managerGetVoices (a : Avail) (apiKey : Option (List Char))
    (winProc : ProcResult) (elFetch : FetchOutcome) :
    Except (List Char) (List VoiceInfo) :=
  match activeProvider a with
  | none => .ok []
  | some .macos => .ok (macosGetVoices a.macos)
  | some .windows => windowsGetVoices a.windows winProc
  | some .android => .ok (androidGetVoices a.android)
  | some .elevenlabs => .ok (elevenLabsGetVoices a.elevenlabs apiKey elFetch)

/-! ## Unfolding equations and evaluation checks -/

theorem matchHeader_length {s tail : List Char} (h : matchHeader s = some tail) :
    tail.length < s.length := by
  unfold matchHeader at h
  split at h
  · split at h
    next w tail' heq =>
      split at h
      · cases h
        have hlen := List.length_drop (hashRun s) s
        rw [heq] at hlen
        simp only [List.length_cons] at hlen
        omega
      · exact absurd h (by simp)
    next => exact absurd h (by simp)
  · exact absurd h (by simp)

theorem stripHeadersF_eq_of_le {fuel₁ fuel₂ : Nat} {s : List Char}
    (h₁ : s.length ≤ fuel₁) (h₂ : s.length ≤ fuel₂) :
    stripHeadersF fuel₁ s = stripHeadersF fuel₂ s := by
  induction fuel₁ generalizing fuel₂ s with
  | zero =>
    cases s with
    | nil => cases fuel₂ <;> rfl
    | cons c rest => simp at h₁
  | succ f ih =>
    cases s with
    | nil => cases fuel₂ <;> rfl
    | cons c rest =>
      cases fuel₂ with
      | zero => simp at h₂
      | succ f₂ =>
        simp only [stripHeadersF]
        simp only [List.length_cons] at h₁ h₂
        cases hm : matchHeader (c :: rest) with
        | some tail =>
          have hlt := matchHeader_length hm
          simp only [List.length_cons] at hlt
          exact @ih f₂ tail (by omega) (by omega)
        | none =>
          exact congrArg (fun l => c :: l) (@ih f₂ rest (by omega) (by omega))

/-- The natural unfolding of pass 5 at a nonempty input. -/
theorem stripHeaders_cons (c : Char) (rest : List Char) :
    stripHeaders (c :: rest) =
      match matchHeader (c :: rest) with
      | some tail => stripHeaders tail
      | none => c :: stripHeaders rest := by
  unfold stripHeaders
  simp only [List.length_cons, stripHeadersF]
  cases hm : matchHeader (c :: rest) with
  | some tail =>
    have hlt := matchHeader_length hm
    simp only [List.length_cons] at hlt
    exact @stripHeadersF_eq_of_le rest.length tail.length tail (by omega) (le_refl _)
  | none => rfl

theorem matchLink_length {s grp rem : List Char}
    (h : matchLink s = some (grp, rem)) : rem.length < s.length := by
  unfold matchLink at h
  split at h
  · exact absurd h (by simp)
  · split at h
    next x1 rest2 hd =>
      split at h
      · exact absurd h (by simp)
      next hne2 =>
        split at h
        next x2 rem' hd2 =>
          cases h
          have h1 := List.length_drop (linkLabel s).length s
          rw [hd] at h1
          simp only [List.length_cons] at h1
          have h2 := List.length_drop (linkUrl rest2).length rest2
          rw [hd2] at h2
          simp only [List.length_cons] at h2
          have hupos : 0 < (linkUrl rest2).length := by
            cases hu' : linkUrl rest2 with
            | nil => rw [hu'] at hne2; exact absurd rfl hne2
            | cons a t => simp [hu']
          omega
        next => exact absurd h (by simp)
    next => exact absurd h (by simp)

theorem stripLinksF_eq_of_le {fuel₁ fuel₂ : Nat} {s : List Char}
    (h₁ : s.length ≤ fuel₁) (h₂ : s.length ≤ fuel₂) :
    stripLinksF fuel₁ s = stripLinksF fuel₂ s := by
  induction fuel₁ generalizing fuel₂ s with
  | zero =>
    cases s with
    | nil => cases fuel₂ <;> rfl
    | cons c rest => simp at h₁
  | succ f ih =>
    cases s with
    | nil => cases fuel₂ <;> rfl
    | cons c rest =>
      cases fuel₂ with
      | zero => simp at h₂
      | succ f₂ =>
        simp only [stripLinksF]
        simp only [List.length_cons] at h₁ h₂
        by_cases hc : c = '['
        · simp only [hc, if_true]
          cases hm : matchLink rest with
          | some pr =>
            obtain ⟨grp, rem⟩ := pr
            have hlt := matchLink_length hm
            exact congrArg (fun l => grp ++ l) (@ih f₂ rem (by omega) (by omega))
          | none =>
            exact congrArg (fun l => '[' :: l) (@ih f₂ rest (by omega) (by omega))
        · simp only [hc, if_false]
          exact congrArg (fun l => c :: l) (@ih f₂ rest (by omega) (by omega))

/-- The natural unfolding of pass 6 at a nonempty input. -/
theorem stripLinks_cons (c : Char) (rest : List Char) :
    stripLinks (c :: rest) =
      if c = '[' then
        match matchLink rest with
        | some (grp, rem) => grp ++ stripLinks rem
        | none => c :: stripLinks rest
      else c :: stripLinks rest := by
  unfold stripLinks
  simp only [List.length_cons, stripLinksF]
  by_cases hc : c = '['
  · simp only [hc, if_true]
    cases hm : matchLink rest with
    | some pr =>
      obtain ⟨grp, rem⟩ := pr
      have hlt := matchLink_length hm
      exact congrArg (fun l => grp ++ l)
        (@stripLinksF_eq_of_le rest.length rem.length rem (by omega) (le_refl _))
    | none => rfl
  · simp only [hc, if_false]

example : sanitizeText "**Hello** `world`".toList = "Hello world".toList := by decide
example : sanitizeText "# Title".toList = "Title".toList := by decide
example : sanitizeText "a # b".toList = "a b".toList := by decide
example : sanitizeText "[label](http://x)".toList = "label".toList := by decide
example : sanitizeText "  x  ".toList = "x".toList := by decide

example : jsRound (5 / 2) = 3 := by with_unfolding_all decide
example : jsRound (-(5 / 2)) = -2 := by with_unfolding_all decide
example : roundTo2 (4 / 7) = 57 / 100 := by with_unfolding_all decide

example : activeProvider ⟨false, true, false, true⟩ = some .windows := by decide
example : activeProvider ⟨false, false, false, true⟩ = some .elevenlabs := by decide
example : activeProvider ⟨false, false, false, false⟩ = none := by decide

/-! ## Sanitizer lemmas -/

theorem mem_of_mem_stripDoubleStar {c : Char} :
    ∀ {s : List Char}, c ∈ stripDoubleStar s → c ∈ s := by
  intro s
  induction s using stripDoubleStar.induct with
  | case1 rest ih =>
    intro h
    simp only [stripDoubleStar] at h
    exact List.mem_cons_of_mem _ (List.mem_cons_of_mem _ (ih h))
  | case2 a rest hne ih =>
    intro h
    rw [stripDoubleStar] at h
    · rcases List.mem_cons.mp h with h | h
      · exact List.mem_cons.mpr (Or.inl h)
      · exact List.mem_cons.mpr (Or.inr (ih h))
    · exact hne
  | case3 => intro h; simp [stripDoubleStar] at h

theorem matchHeader_subset {s tail : List Char} (h : matchHeader s = some tail)
    {c : Char} (hc : c ∈ tail) : c ∈ s := by
  unfold matchHeader at h
  split at h
  · split at h
    next w t heq =>
      split at h
      · cases h
        refine List.drop_subset (hashRun s) s ?_
        rw [heq]
        exact List.mem_cons_of_mem w hc
      · exact absurd h (by simp)
    next => exact absurd h (by simp)
  · exact absurd h (by simp)

theorem mem_of_mem_stripHeadersF {c : Char} :
    ∀ (fuel : Nat) (s : List Char), c ∈ stripHeadersF fuel s → c ∈ s := by
  intro fuel
  induction fuel with
  | zero =>
    intro s h
    cases s with
    | nil => simp [stripHeadersF] at h
    | cons a t => exact h
  | succ f ih =>
    intro s h
    cases s with
    | nil => simp [stripHeadersF] at h
    | cons a t =>
      rw [stripHeadersF] at h
      cases hm : matchHeader (a :: t) with
      | some tail => rw [hm] at h; exact matchHeader_subset hm (ih tail h)
      | none =>
        rw [hm] at h
        rcases List.mem_cons.mp h with h | h
        · exact List.mem_cons.mpr (Or.inl h)
        · exact List.mem_cons.mpr (Or.inr (ih t h))

theorem mem_of_mem_stripHeaders {c : Char} {s : List Char}
    (h : c ∈ stripHeaders s) : c ∈ s :=
  mem_of_mem_stripHeadersF s.length s h

theorem matchLink_subset {s grp rem : List Char} (h : matchLink s = some (grp, rem)) :
    (∀ c ∈ grp, c ∈ s) ∧ (∀ c ∈ rem, c ∈ s) := by
  unfold matchLink at h
  split at h
  · exact absurd h (by simp)
  · split at h
    next x1 rest2 hd =>
      split at h
      · exact absurd h (by simp)
      next hne2 =>
        split at h
        next x2 rem' hd2 =>
          cases h
          constructor
          · exact fun c hc => List.takeWhile_subset _ hc
          · intro c hc
            have h1 : c ∈ rest2 := by
              refine List.drop_subset (linkUrl rest2).length rest2 ?_
              rw [hd2]
              exact List.mem_cons_of_mem _ hc
            refine List.drop_subset (linkLabel s).length s ?_
            rw [hd]
            exact List.mem_cons_of_mem _ (List.mem_cons_of_mem _ h1)
        next => exact absurd h (by simp)
    next => exact absurd h (by simp)

theorem mem_of_mem_stripLinksF {c : Char} :
    ∀ (fuel : Nat) (s : List Char), c ∈ stripLinksF fuel s → c ∈ s := by
  intro fuel
  induction fuel with
  | zero =>
    intro s h
    cases s with
    | nil => simp [stripLinksF] at h
    | cons a t => exact h
  | succ f ih =>
    intro s h
    cases s with
    | nil => simp [stripLinksF] at h
    | cons a t =>
      rw [stripLinksF] at h
      by_cases ha : a = '['
      · rw [if_pos ha] at h
        cases hm : matchLink t with
        | some pr =>
          obtain ⟨grp, rem⟩ := pr
          rw [hm] at h
          rcases List.mem_append.mp h with h | h
          · exact List.mem_cons_of_mem _ ((matchLink_subset hm).1 c h)
          · exact List.mem_cons_of_mem _ ((matchLink_subset hm).2 c (ih rem h))
        | none =>
          rw [hm] at h
          rcases List.mem_cons.mp h with h | h
          · exact List.mem_cons.mpr (Or.inl h)
          · exact List.mem_cons.mpr (Or.inr (ih t h))
      · rw [if_neg ha] at h
        rcases List.mem_cons.mp h with h | h
        · exact List.mem_cons.mpr (Or.inl h)
        · exact List.mem_cons.mpr (Or.inr (ih t h))

theorem mem_of_mem_stripLinks {c : Char} {s : List Char}
    (h : c ∈ stripLinks s) : c ∈ s :=
  mem_of_mem_stripLinksF s.length s h

theorem mem_of_mem_jsTrim {c : Char} {s : List Char} (h : c ∈ jsTrim s) : c ∈ s := by
  unfold jsTrim at h
  rw [List.mem_reverse] at h
  have h1 := (List.dropWhile_suffix jsIsSpace).subset h
  rw [List.mem_reverse] at h1
  exact (List.dropWhile_suffix jsIsSpace).subset h1

/-- All character-level containment of the sanitizer output in its
input. -/
theorem mem_of_mem_sanitizeText {c : Char} {s : List Char}
    (h : c ∈ sanitizeText s) : c ∈ s := by
  unfold sanitizeText at h
  have h1 := mem_of_mem_jsTrim h
  have h2 := mem_of_mem_stripLinks h1
  have h3 := mem_of_mem_stripHeaders h2
  have h4 := List.mem_of_mem_filter h3
  have h5 := mem_of_mem_stripDoubleStar (List.mem_of_mem_filter h4)
  exact List.mem_of_mem_filter h5

theorem stripAngle_eq_self {s : List Char} (h1 : '<' ∉ s) (h2 : '>' ∉ s) :
    stripAngle s = s :=
  List.filter_eq_self.mpr (fun a ha => by
    have e1 : a ≠ '<' := fun e => h1 (e ▸ ha)
    have e2 : a ≠ '>' := fun e => h2 (e ▸ ha)
    simp [e1, e2])

theorem stripStar_eq_self {s : List Char} (h : '*' ∉ s) : stripStar s = s :=
  List.filter_eq_self.mpr (fun a ha => by
    have e : a ≠ '*' := fun e => h (e ▸ ha)
    simp [e])

theorem stripBacktick_eq_self {s : List Char} (h : '`' ∉ s) : stripBacktick s = s :=
  List.filter_eq_self.mpr (fun a ha => by
    have e : a ≠ '`' := fun e => h (e ▸ ha)
    simp [e])

theorem stripDoubleStar_eq_self : ∀ {s : List Char}, '*' ∉ s → stripDoubleStar s = s := by
  intro s
  induction s using stripDoubleStar.induct with
  | case1 rest ih => intro h; simp at h
  | case2 a rest hne ih =>
    intro h
    rw [stripDoubleStar]
    · rw [ih (fun hm => h (List.mem_cons_of_mem a hm))]
    · exact hne
  | case3 => intro h; rfl

theorem matchHeader_eq_none {c : Char} {rest : List Char} (hc : c ≠ '#') :
    matchHeader (c :: rest) = none := by
  have h0 : hashRun (c :: rest) = 0 := by
    simp [hashRun, List.takeWhile_cons, hc]
  simp [matchHeader, h0]

theorem stripHeadersF_eq_self :
    ∀ (fuel : Nat) {s : List Char}, '#' ∉ s → stripHeadersF fuel s = s := by
  intro fuel
  induction fuel with
  | zero =>
    intro s h
    cases s with
    | nil => rfl
    | cons a t => rfl
  | succ f ih =>
    intro s h
    cases s with
    | nil => rfl
    | cons a t =>
      have ha : a ≠ '#' := fun e => h (e ▸ List.mem_cons_self a t)
      rw [stripHeadersF, matchHeader_eq_none ha,
        ih (fun hm => h (List.mem_cons_of_mem a hm))]

theorem stripHeaders_eq_self {s : List Char} (h : '#' ∉ s) : stripHeaders s = s :=
  stripHeadersF_eq_self s.length h

theorem stripLinksF_eq_self :
    ∀ (fuel : Nat) {s : List Char}, '[' ∉ s → stripLinksF fuel s = s := by
  intro fuel
  induction fuel with
  | zero =>
    intro s h
    cases s with
    | nil => rfl
    | cons a t => rfl
  | succ f ih =>
    intro s h
    cases s with
    | nil => rfl
    | cons a t =>
      have ha : a ≠ '[' := fun e => h (e ▸ List.mem_cons_self a t)
      rw [stripLinksF, if_neg ha, ih (fun hm => h (List.mem_cons_of_mem a hm))]

theorem stripLinks_eq_self {s : List Char} (h : '[' ∉ s) : stripLinks s = s :=
  stripLinksF_eq_self s.length h

theorem dropWhile_jsTrim_eq_self (s : List Char) :
    List.dropWhile jsIsSpace (jsTrim s) = jsTrim s := by
  rcases hj : jsTrim s with _ | ⟨a, t⟩
  · rfl
  · have hpre : jsTrim s <+: List.dropWhile jsIsSpace s :=
      List.rdropWhile_prefix jsIsSpace (List.dropWhile jsIsSpace s)
    rw [hj] at hpre
    obtain ⟨u, hu⟩ := hpre
    have hne : List.dropWhile jsIsSpace s ≠ [] := by
      rw [← hu]; simp
    have hhead : (List.dropWhile jsIsSpace s).head hne = a := by
      have h1 : (List.dropWhile jsIsSpace s).head? = some a := by rw [← hu]; rfl
      rw [List.head?_eq_head hne] at h1
      exact Option.some.inj h1
    have hpa : jsIsSpace a = false := by
      have hnot := List.head_dropWhile_not jsIsSpace s hne
      rw [hhead] at hnot
      exact hnot
    rw [List.dropWhile_cons, hpa]
    simp

theorem jsTrim_idempotent (s : List Char) : jsTrim (jsTrim s) = jsTrim s := by
  show List.rdropWhile jsIsSpace (List.dropWhile jsIsSpace (jsTrim s)) = jsTrim s
  rw [dropWhile_jsTrim_eq_self]
  show List.rdropWhile jsIsSpace
    (List.rdropWhile jsIsSpace (List.dropWhile jsIsSpace s)) = _
  exact List.rdropWhile_idempotent jsIsSpace (List.dropWhile jsIsSpace s)

/-- The characters the filter passes delete can never appear in the
sanitizer's output, whatever the input. -/
theorem sanitizeText_no_specials (s : List Char) :
    '<' ∉ sanitizeText s ∧ '>' ∉ sanitizeText s ∧
    '*' ∉ sanitizeText s ∧ '`' ∉ sanitizeText s := by
  refine ⟨fun hc => ?_, fun hc => ?_, fun hc => ?_, fun hc => ?_⟩ <;>
  · unfold sanitizeText at hc
    have h1 := mem_of_mem_stripHeaders (mem_of_mem_stripLinks (mem_of_mem_jsTrim hc))
    first
    | exact absurd (List.of_mem_filter h1) (by decide)
    | · have h2 := mem_of_mem_stripDoubleStar
          (List.mem_of_mem_filter (List.mem_of_mem_filter h1))
        exact absurd (List.of_mem_filter h2) (by decide)
    | exact absurd (List.of_mem_filter (List.mem_of_mem_filter h1)) (by decide)

/-! ## Claim C1 -/

/-- C1: for every fixed assignment of availability results,
`Manager.initialize()` selects as active the first available native
provider in construction order (macOS, then Windows, then Android);
with no native available it selects ElevenLabs when available; with no
provider available the active provider remains unset. The selection is
a pure function of the availability results (construction order is
baked into `constructionOrder`; completion order does not appear). -/
theorem C1_active_provider_policy (a : Avail) :
    activeProvider a =
      (if a.macos then some PName.macos
       else if a.windows then some PName.windows
       else if a.android then some PName.android
       else if a.elevenlabs then some PName.elevenlabs
       else none) := by
  obtain ⟨m, w, x, e⟩ := a
  cases m <;> cases w <;> cases x <;> cases e <;> decide

/-! ## Claim C2 -/

/-- C2 counterexample: `normalizeRate 80 = -5`, not the `-10` the claim
asserts (the value `(80-180)/20 = -5` is inside the SAPI range, so the
clamp does not fire). -/
theorem C2_counterexample_rate80 :
    normalizeRate 80 = -5 ∧ ¬ normalizeRate 80 = -10 :=
  ⟨by with_unfolding_all decide, by with_unfolding_all decide⟩

/-- C2 (amended): the Windows provider's rate normalization computes
`clamp(round((wpm-180)/20), -10, 10)`; input 180 yields 0, input 200
yields 1, input 400 yields 10 (clamped), and input 80 yields -5 (within
range, no clamping). -/
theorem C2_rate_normalization :
    (∀ wpm : ℚ, normalizeRate wpm = max (-10) (min 10 (jsRound ((wpm - 180) / 20)))) ∧
    normalizeRate 180 = 0 ∧ normalizeRate 200 = 1 ∧
    normalizeRate 80 = -5 ∧ normalizeRate 400 = 10 :=
  ⟨fun _ => rfl, by with_unfolding_all decide, by with_unfolding_all decide,
   by with_unfolding_all decide, by with_unfolding_all decide⟩

/-! ## Claim C3 -/

/-- C3: when zero providers report available, `Manager.speak` throws
`"No voice provider available"` and `Manager.getVoices` returns the
empty list without throwing. -/
theorem C3_no_provider_behavior (a : Avail)
    (h : a.macos = false ∧ a.windows = false ∧ a.android = false ∧
         a.elevenlabs = false)
    (apiKey : Option (List Char)) (text : List Char)
    (options : Option VoiceOptions) (winProc : ProcResult) (elFetch : FetchOutcome) :
    managerSpeak a apiKey text options =
      .error "No voice provider available".toList ∧
    managerGetVoices a apiKey winProc elFetch = .ok [] := by
  obtain ⟨m, w, x, e⟩ := a
  have hm : m = false := h.1
  have hw : w = false := h.2.1
  have hx : x = false := h.2.2.1
  have he : e = false := h.2.2.2
  subst hm hw hx he
  exact ⟨rfl, rfl⟩

theorem C3_no_provider_behavior_witness :
    ((⟨false, false, false, false⟩ : Avail).macos = false ∧
     (⟨false, false, false, false⟩ : Avail).windows = false ∧
     (⟨false, false, false, false⟩ : Avail).android = false ∧
     (⟨false, false, false, false⟩ : Avail).elevenlabs = false) ∧
    (managerSpeak ⟨false, false, false, false⟩ none "hi".toList none =
       .error "No voice provider available".toList ∧
     managerGetVoices ⟨false, false, false, false⟩ none ProcResult.err
       FetchOutcome.fail = .ok []) :=
  ⟨⟨rfl, rfl, rfl, rfl⟩,
   C3_no_provider_behavior ⟨false, false, false, false⟩ ⟨rfl, rfl, rfl, rfl⟩
     none "hi".toList none ProcResult.err FetchOutcome.fail⟩

/-! ## Claim C4 -/

/-- C4: every provider's `speak` applies the shared sanitizer before
dispatch: the final `say`/`termux-tts-speak` argument is the sanitized
text, the PowerShell script's `Speak` argument is the quote-escaped
sanitized text, and the cloud request body carries the sanitized text —
no backend receives the raw text. -/
theorem C4_sanitize_before_dispatch (text : List Char) (options : Option VoiceOptions) :
    (∀ args, macosSpeak true text options = .ok args →
      ∃ pre, args = pre ++ [Tok.str (sanitizeText text)]) ∧
    (∀ args, androidSpeak true text options = .ok args →
      ∃ pre, args = pre ++ [Tok.str (sanitizeText text)]) ∧
    (∀ script, windowsSpeak true text options = .ok script →
      script.speakText = escapeQuotes (sanitizeText text)) ∧
    (∀ (apiKey : Option (List Char)) req,
      elevenLabsSpeak true apiKey text options = .ok req →
      req.body.text = sanitizeText text) := by
  refine ⟨?_, ?_, ?_, ?_⟩
  · intro args h
    have h' : Except.ok (ε := List Char)
        (macosVoiceArgs options ++ macosRateArgs options ++
          [Tok.str (sanitizeText text)]) = Except.ok args := h
    exact ⟨macosVoiceArgs options ++ macosRateArgs options, (Except.ok.inj h').symm⟩
  · intro args h
    have h' : Except.ok (ε := List Char)
        (androidRateArgs options ++ androidPitchArgs options ++
          [Tok.str (sanitizeText text)]) = Except.ok args := h
    exact ⟨androidRateArgs options ++ androidPitchArgs options, (Except.ok.inj h').symm⟩
  · intro script h
    have h' : Except.ok (ε := List Char)
        ({ selectVoice := truthyStr (options.bind VoiceOptions.voice),
           rate := (truthyNum (options.bind VoiceOptions.rate)).map normalizeRate,
           speakText := escapeQuotes (sanitizeText text) } : WinScript) =
        Except.ok script := h
    rw [← Except.ok.inj h']
  · intro apiKey req h
    cases hk : truthyStr apiKey with
    | none =>
      unfold elevenLabsSpeak at h
      rw [hk] at h
      simp at h
    | some key =>
      unfold elevenLabsSpeak at h
      rw [hk] at h
      cases Except.ok.inj h
      rfl

theorem C4_sanitize_before_dispatch_witness :
    macosSpeak true "**hi**".toList none = .ok [Tok.str "hi".toList] ∧
    (∃ pre, [Tok.str "hi".toList] = pre ++ [Tok.str (sanitizeText "**hi**".toList)]) :=
  ⟨by decide,
   (C4_sanitize_before_dispatch "**hi**".toList none).1 [Tok.str "hi".toList] (by decide)⟩

/-! ## Claim C5 -/

/-- C5 counterexample: with macOS unavailable and the other three
available, `getProviders()` returns only the three available providers;
the constructed macOS provider is not retained. -/
theorem C5_counterexample_unavailable_dropped :
    managerProviders ⟨false, true, true, true⟩ =
      [PName.windows, PName.android, PName.elevenlabs] ∧
    PName.macos ∉ managerProviders ⟨false, true, true, true⟩ :=
  ⟨rfl, by decide⟩

/-- C5 (amended): after `initialize()`, `getProviders()` returns
exactly the providers whose detection reported available, in
construction order; providers that report unavailable are not pushed
into the list. -/
theorem C5_providers_available_only (a : Avail) :
    managerProviders a = constructionOrder.filter (availOf a) ∧
    ∀ p : PName, p ∈ managerProviders a ↔ availOf a p = true := by
  refine ⟨rfl, fun p => ?_⟩
  obtain ⟨m, w, x, e⟩ := a
  cases p <;> cases m <;> cases w <;> cases x <;> cases e <;> decide

/-! ## Claim C6 -/

/-- C6 counterexample: the Windows provider's `getVoices` rejects —
rather than returning the empty list — when the enumeration subprocess
exits with a nonzero code. -/
theorem C6_counterexample_windows_throws :
    windowsGetVoices true (ProcResult.exit 1 [] "boom".toList) =
      .error "PowerShell exited with code 1: boom".toList ∧
    ¬ windowsGetVoices true (ProcResult.exit 1 [] "boom".toList) = .ok [] :=
  ⟨by decide, by decide⟩

/-- C6 (amended): every provider's `getVoices` returns the empty list
when the provider is unavailable, and the ElevenLabs provider also
returns the empty list when its enumeration fetch throws or responds
non-2xx; but the Windows provider's `getVoices` rejects when its
subprocess errors or exits with a nonzero code. -/
theorem C6_getVoices_behavior :
    (∀ r, windowsGetVoices false r = .ok []) ∧
    macosGetVoices false = [] ∧
    androidGetVoices false = [] ∧
    (∀ key f, elevenLabsGetVoices false key f = []) ∧
    (∀ key, elevenLabsGetVoices true key FetchOutcome.fail = []) ∧
    (∀ key vs, elevenLabsGetVoices true key (FetchOutcome.resp false vs) = []) ∧
    windowsGetVoices true ProcResult.err = .error "spawn error".toList ∧
    (∀ (code : ℤ) stdout stderr, code ≠ 0 →
      windowsGetVoices true (ProcResult.exit code stdout stderr) =
        .error ("PowerShell exited with code ".toList ++ intToStr code ++
          ": ".toList ++ stderr)) := by
  refine ⟨fun r => rfl, rfl, rfl, fun key f => rfl, fun key => ?_, fun key vs => ?_,
    rfl, fun code stdout stderr hc => ?_⟩
  · unfold elevenLabsGetVoices
    cases truthyStr key with
    | none => rfl
    | some k => rfl
  · unfold elevenLabsGetVoices
    cases truthyStr key with
    | none => rfl
    | some k => rfl
  · show (if code ≠ 0 then _ else _) = _
    rw [if_pos hc]

theorem C6_getVoices_behavior_witness :
    (1 : ℤ) ≠ 0 ∧
    windowsGetVoices true (ProcResult.exit 1 [] []) =
      .error ("PowerShell exited with code ".toList ++ intToStr 1 ++
        ": ".toList ++ []) :=
  ⟨by decide,
   C6_getVoices_behavior.2.2.2.2.2.2.2 1 [] [] (by decide)⟩

/-! ## Claim C7 -/

/-- C7 counterexample: the macOS provider does not clamp the rate — a
negative (out of any valid words-per-minute range) rate is passed to
the `say` command unchanged. -/
theorem C7_counterexample_macos_no_clamp :
    macosSpeak true "hi".toList
        (some { voice := none, rate := some (-100), pitch := none, volume := none }) =
      .ok [Tok.str "-r".toList, Tok.num (-100), Tok.str "hi".toList] ∧
    ((-100 : ℚ) < 0) :=
  ⟨by with_unfolding_all decide, by with_unfolding_all decide⟩

theorem roundTo2_clampTermux_bounds (q : ℚ) :
    1 / 10 ≤ roundTo2 (clampTermux q) ∧ roundTo2 (clampTermux q) ≤ 2 := by
  have h1 : 1 / 10 ≤ clampTermux q := le_max_left _ _
  have h2 : clampTermux q ≤ 2 := max_le (by norm_num) (min_le_left _ _)
  constructor
  · have hfl : (10 : ℤ) ≤ ⌊clampTermux q * 100 + 1 / 2⌋ :=
      Int.le_floor.mpr (by push_cast; linarith)
    have h10 : ((10 : ℤ) : ℚ) ≤ ((⌊clampTermux q * 100 + 1 / 2⌋ : ℤ) : ℚ) :=
      Int.cast_le.mpr hfl
    unfold roundTo2 jsRound
    push_cast at h10 ⊢
    linarith
  · have hfl : ⌊clampTermux q * 100 + 1 / 2⌋ < (201 : ℤ) :=
      Int.floor_lt.mpr (by push_cast; linarith)
    have h200 : ((⌊clampTermux q * 100 + 1 / 2⌋ : ℤ) : ℚ) ≤ ((200 : ℤ) : ℚ) :=
      Int.cast_le.mpr (by omega)
    unfold roundTo2 jsRound
    push_cast at h200 ⊢
    linarith

/-- C7 (amended): numeric rate/pitch handling is per-provider: the
Android provider clamps the normalized rate (`wpm/175`) and the pitch
into 0.1..2.0 before dispatch, while the macOS provider passes the rate
value through to the external command unmodified (no clamping). -/
theorem C7_clamping_behavior (options : Option VoiceOptions) (r p : ℚ) :
    (truthyNum (options.bind VoiceOptions.rate) = some r →
      macosRateArgs options = [Tok.str "-r".toList, Tok.num r] ∧
      androidRateArgs options =
        [Tok.str "-r".toList, Tok.num (roundTo2 (clampTermux (r / 175)))] ∧
      1 / 10 ≤ roundTo2 (clampTermux (r / 175)) ∧
      roundTo2 (clampTermux (r / 175)) ≤ 2) ∧
    (truthyNum (options.bind VoiceOptions.pitch) = some p →
      androidPitchArgs options =
        [Tok.str "-p".toList, Tok.num (roundTo2 (clampTermux p))] ∧
      1 / 10 ≤ roundTo2 (clampTermux p) ∧ roundTo2 (clampTermux p) ≤ 2) := by
  constructor
  · intro h
    refine ⟨?_, ?_, (roundTo2_clampTermux_bounds (r / 175)).1,
      (roundTo2_clampTermux_bounds (r / 175)).2⟩
    · unfold macosRateArgs
      rw [h]
    · unfold androidRateArgs
      rw [h]
  · intro h
    refine ⟨?_, (roundTo2_clampTermux_bounds p).1, (roundTo2_clampTermux_bounds p).2⟩
    unfold androidPitchArgs
    rw [h]

set_option maxRecDepth 8000 in
theorem C7_clamping_behavior_witness :
    truthyNum ((some ⟨none, some 1000, none, none⟩ : Option VoiceOptions).bind
      VoiceOptions.rate) = some 1000 ∧
    (macosRateArgs (some ⟨none, some 1000, none, none⟩) =
       [Tok.str "-r".toList, Tok.num 1000] ∧
     androidRateArgs (some ⟨none, some 1000, none, none⟩) =
       [Tok.str "-r".toList, Tok.num (roundTo2 (clampTermux (1000 / 175)))] ∧
     1 / 10 ≤ roundTo2 (clampTermux (1000 / 175)) ∧
     roundTo2 (clampTermux (1000 / 175)) ≤ 2) :=
  ⟨by with_unfolding_all decide,
   (C7_clamping_behavior (some ⟨none, some 1000, none, none⟩) 1000 1000).1
     (by with_unfolding_all decide)⟩

/-! ## Claim C8 -/

/-- C8 counterexample: a `#`-plus-space sequence occurring mid-line is
removed by the sanitizer, not left unchanged (the regex is not anchored
to line starts). -/
theorem C8_counterexample_midline :
    sanitizeText "a # b".toList = "a b".toList ∧
    ¬ sanitizeText "a # b".toList = "a # b".toList :=
  ⟨by decide, by decide⟩

theorem hashRun_replicate_append (n : Nat) {w : Char} (v : List Char) (hw : w ≠ '#') :
    hashRun (List.replicate n '#' ++ w :: v) = n := by
  induction n with
  | zero => simp [hashRun, List.takeWhile_cons, hw]
  | succ m ih =>
    rw [List.replicate_succ, List.cons_append]
    unfold hashRun at ih ⊢
    rw [List.takeWhile_cons]
    simp only [decide_True, if_true, List.length_cons, ih]

theorem matchHeader_replicate (n : Nat) (w : Char) (v : List Char)
    (hn1 : 1 ≤ n) (hn6 : n ≤ 6) (hw : jsIsSpace w = true) :
    matchHeader (List.replicate n '#' ++ w :: v) = some v := by
  have hwh : w ≠ '#' := by
    intro e; subst e; exact absurd hw (by decide)
  have hr := hashRun_replicate_append n v hwh
  unfold matchHeader
  rw [hr, if_pos ⟨hn1, hn6⟩,
    List.drop_left' (List.length_replicate n '#')]
  show (if jsIsSpace w then some v else none) = some v
  rw [if_pos hw]

/-- C8 (amended): the heading-marker pass removes a run of one to six
`#` characters followed by a whitespace character wherever it occurs in
the text — at a line start or mid-line alike. -/
theorem C8_heading_markers_anywhere (u v : List Char) (n : Nat) (w : Char)
    (hn1 : 1 ≤ n) (hn6 : n ≤ 6)
    (hu : '#' ∉ u) (hv : '#' ∉ v) (hw : jsIsSpace w = true) :
    stripHeaders (u ++ (List.replicate n '#' ++ w :: v)) = u ++ v := by
  induction u with
  | nil =>
    simp only [List.nil_append]
    have hm := matchHeader_replicate n w v hn1 hn6 hw
    cases n with
    | zero => exact absurd hn1 (by omega)
    | succ m =>
      rw [List.replicate_succ, List.cons_append] at hm ⊢
      rw [stripHeaders_cons, hm]
      exact stripHeaders_eq_self hv
  | cons a u' ih =>
    have ha : a ≠ '#' := fun e => hu (e ▸ List.mem_cons_self a u')
    have hu' : '#' ∉ u' := fun hm => hu (List.mem_cons_of_mem a hm)
    rw [List.cons_append, stripHeaders_cons, matchHeader_eq_none ha]
    show a :: stripHeaders (u' ++ (List.replicate n '#' ++ w :: v)) = a :: (u' ++ v)
    rw [ih hu']

theorem C8_heading_markers_anywhere_witness :
    (1 ≤ 3 ∧ 3 ≤ 6 ∧ '#' ∉ "ab ".toList ∧ '#' ∉ "cd".toList ∧
     jsIsSpace ' ' = true) ∧
    stripHeaders ("ab ".toList ++ (List.replicate 3 '#' ++ ' ' :: "cd".toList)) =
      "ab ".toList ++ "cd".toList :=
  ⟨⟨by decide, by decide, by decide, by decide, by decide⟩,
   C8_heading_markers_anywhere "ab ".toList "cd".toList 3 ' '
     (by decide) (by decide) (by decide) (by decide) (by decide)⟩

/-! ## Claim C9 -/

/-- C9 counterexample: the sanitizer is not idempotent — rewriting the
outer markdown link of `[[a](b)](c)` exposes a fresh link that only a
second pass rewrites. -/
theorem C9_counterexample_not_idempotent :
    sanitizeText "[[a](b)](c)".toList = "[a](c)".toList ∧
    sanitizeText (sanitizeText "[[a](b)](c)".toList) = "a".toList ∧
    ¬ sanitizeText (sanitizeText "[[a](b)](c)".toList) =
        sanitizeText "[[a](b)](c)".toList :=
  ⟨by decide, by decide, by decide⟩

/-- C9 (amended): the sanitizer is idempotent on every input containing
no `[` and no `#` character; in general a second pass can differ, since
link rewriting and heading stripping can expose markers for later
passes. -/
theorem C9_idempotent_without_link_or_heading_markers (x : List Char)
    (h1 : '[' ∉ x) (h2 : '#' ∉ x) :
    sanitizeText (sanitizeText x) = sanitizeText x := by
  have hno := sanitizeText_no_specials x
  have hnoHash : '#' ∉ sanitizeText x := fun hc => h2 (mem_of_mem_sanitizeText hc)
  have hnoBr : '[' ∉ sanitizeText x := fun hc => h1 (mem_of_mem_sanitizeText hc)
  set y := sanitizeText x with hy
  show sanitizeText y = y
  unfold sanitizeText
  rw [stripAngle_eq_self hno.1 hno.2.1, stripDoubleStar_eq_self hno.2.2.1,
    stripStar_eq_self hno.2.2.1, stripBacktick_eq_self hno.2.2.2,
    stripHeaders_eq_self hnoHash, stripLinks_eq_self hnoBr, hy]
  exact jsTrim_idempotent _

theorem C9_idempotent_witness :
    ('[' ∉ "  hello *world* ".toList ∧ '#' ∉ "  hello *world* ".toList) ∧
    sanitizeText (sanitizeText "  hello *world* ".toList) =
      sanitizeText "  hello *world* ".toList :=
  ⟨⟨by decide, by decide⟩,
   C9_idempotent_without_link_or_heading_markers "  hello *world* ".toList
     (by decide) (by decide)⟩

/-! ## Claim C10 -/

/-- C10: the cloud provider's `speak` ignores `rate`, `pitch` and
`volume`: two option records agreeing on `voice` produce the identical
HTTP request (URL, headers and body). -/
theorem C10_options_beyond_voice_ignored (available : Bool)
    (apiKey : Option (List Char)) (text : List Char) (o1 o2 : VoiceOptions)
    (h : o1.voice = o2.voice) :
    elevenLabsSpeak available apiKey text (some o1) =
      elevenLabsSpeak available apiKey text (some o2) := by
  unfold elevenLabsSpeak
  have hb : (some o1).bind VoiceOptions.voice = (some o2).bind VoiceOptions.voice := h
  rw [hb]

theorem C10_options_beyond_voice_ignored_witness :
    (VoiceOptions.voice ⟨some "v".toList, some 100, none, none⟩ =
      VoiceOptions.voice ⟨some "v".toList, none, some 2, some 1⟩) ∧
    elevenLabsSpeak true (some "k".toList) "hi".toList
        (some ⟨some "v".toList, some 100, none, none⟩) =
      elevenLabsSpeak true (some "k".toList) "hi".toList
        (some ⟨some "v".toList, none, some 2, some 1⟩) :=
  ⟨rfl,
   C10_options_beyond_voice_ignored true (some "k".toList) "hi".toList
     ⟨some "v".toList, some 100, none, none⟩
     ⟨some "v".toList, none, some 2, some 1⟩ rfl⟩

end PAI
